import Mathlib

set_option maxHeartbeats 4000000
set_option maxRecDepth 8000

/-!
Verification of the chess rules engine (class `ChessGame`).

The engine is embedded shallowly: the mutable `ChessGame` object becomes the
`GameState` structure, each method becomes a pure function from state to state
(returning its result value alongside the new state where the method returns
one), and the JS `string[][]` board becomes a total function from integer
coordinates to the one-letter cell strings used by the source (`"."` for an
empty square, uppercase letters for white pieces, lowercase for black).
JS-specific behaviours (truthiness of strings, `||` defaulting) are embedded
by small explicitly named helpers.
-/

namespace ChessOffline

/-- A (row, col) pair, as the source's `Position` interface.  The source uses
JS numbers and computes offsets that may leave the 0..7 range, so coordinates
are integers. -/
structure Pos where
  row : Int
  col : Int
deriving DecidableEq, Repr

/-- The two player colours; the source uses the strings `'white'`/`'black'`
(and the single characters `'w'`/`'b'` for king colours). -/
inductive Color where
  | white
  | black
deriving DecidableEq, Repr

/-- The opponent of a colour. -/
def Color.opp : Color → Color
  | .white => .black
  | .black => .white

/-- The board: JS `string[][]` indexed `[row][col]`, embedded as a total
function from integer coordinates to cell strings.  Cells hold `"."` for an
empty square or a piece letter. -/
def Board : Type := Int → Int → String

/-- The source's `Move` interface: from/to squares, the moving piece, the
piece actually removed (optional in the interface; `move` always records it,
`getAllValidMoves` builds records without it), and the castling-rights
snapshot taken before the move.  The interface's `castling?` flag is never
set by the code, so it is omitted. -/
structure MoveRec where
  from' : Pos
  to' : Pos
  piece : String
  captured : Option String
  castlingRightsBefore : List Char
deriving DecidableEq, Repr

/-- The mutable fields of the `ChessGame` class. -/
structure GameState where
  board : Board
  lastMove : Option MoveRec
  moveLog : List MoveRec
  redoStack : List MoveRec
  castlingRights : List Char
  history : List (MoveRec × String)
  halfMoveClock : Nat
  fullMoveNumber : Nat
  isCheck : Bool
  checkKingPosition : Option Pos
  isCheckmate : Bool
  isStalemate : Bool
  isDraw : Bool
  gameOver : Bool
  winner : Option Color

/-- `isInBounds(row, col)`: `row >= 0 && row < 8 && col >= 0 && col < 8`. -/
def isInBounds (row col : Int) : Bool :=
  decide (0 ≤ row) && decide (row < 8) && decide (0 ≤ col) && decide (col < 8)

/-- Assignment `board[r][c] = v`.  All assignments executed by the source are
at in-bounds indices; out-of-bounds assignments are embedded as no-ops. -/
def setCell (b : Board) (r c : Int) (v : String) : Board :=
  if isInBounds r c then
    fun i j => if i = r ∧ j = c then v else b i j
  else b

/-- `isWhitePiece(cell)`: the regex test `/[A-Z]/.test(cell)`. -/
def isWhitePiece (cell : String) : Bool :=
  cell.toList.any fun ch => decide ('A' ≤ ch) && decide (ch ≤ 'Z')

/-- `isBlackPiece(cell)`: the regex test `/[a-z]/.test(cell)`. -/
def isBlackPiece (cell : String) : Bool :=
  cell.toList.any fun ch => decide ('a' ≤ ch) && decide (ch ≤ 'z')

/-- JS truthiness of a string value: only the empty string is falsy.  In
particular the empty-square marker `"."` is truthy. -/
def jsTruthy (s : String) : Bool := s ≠ ""

/-- JS `a || d` for an optional string `a`: `undefined` and the empty string
fall through to the default. -/
def jsOr (a : Option String) (d : String) : String :=
  match a with
  | none => d
  | some s => if s = "" then d else s

/-- JS `captured && captured !== "."` for the optional `captured` field:
true iff the field is present, non-empty and not the empty-square marker. -/
def capturedTruthy (captured : Option String) : Bool :=
  match captured with
  | none => false
  | some c => jsTruthy c && c ≠ "."

/-- Lexicographic code-unit comparison of two character lists, the order JS
uses for `<` on strings. -/
def charListLt : List Char → List Char → Bool
  | [], [] => false
  | [], _ :: _ => true
  | _ :: _, [] => false
  | a :: as, b :: bs =>
    if a < b then true else if b < a then false else charListLt as bs

/-- JS `a < b` on strings. -/
def strLt (a b : String) : Bool := charListLt a.toList b.toList

/-- The string JS comparison `lo <= s && s <= hi` (as in `getPieces`'s
`piece >= 'A' && piece <= 'Z'`), in lexicographic code-unit order. -/
def strBetween (lo s hi : String) : Bool :=
  (strLt lo s || lo == s) && (strLt s hi || s == hi)

/-- Splitting on a one-character separator, as JS `split` (empty segments
are preserved).  Written by structural recursion over the character list so
that the kernel can evaluate it. -/
def splitOnCharAux (sep : Char) : List Char → List Char → List String
  | [], acc => [String.mk acc.reverse]
  | c :: cs, acc =>
    if c = sep then String.mk acc.reverse :: splitOnCharAux sep cs []
    else splitOnCharAux sep cs (c :: acc)

/-- JS `s.split(sep)` for a one-character separator. -/
def splitOnChar (s : String) (sep : Char) : List String :=
  splitOnCharAux sep s.toList []

/-- JS `toLowerCase` on the ASCII piece letters. -/
def strToLower (s : String) : String :=
  String.mk (s.toList.map Char.toLower)

/-- JS `toUpperCase` on the ASCII piece letters. -/
def strToUpper (s : String) : String :=
  String.mk (s.toList.map Char.toUpper)

/-- Digit-string parsing, standing in for JS `parseInt` on the FEN clock
fields (`none` for a non-numeric field, as `parseInt`'s `NaN`). -/
def parseNat? (s : String) : Option Nat :=
  if s.toList ≠ [] ∧ s.toList.all Char.isDigit then
    some (s.toList.foldl (fun n c => n * 10 + (c.toNat - '0'.toNat)) 0)
  else none

/-- Insert into a sorted list of strings (comparator as a Bool relation). -/
def insertLe (le : String → String → Bool) (x : String) :
    List String → List String
  | [] => [x]
  | y :: ys => if le x y then x :: y :: ys else y :: insertLe le x ys

/-- JS `Array.prototype.sort` on a list of strings: a stable sort by the
given order, written as insertion sort so that the kernel can evaluate it. -/
def sortStrings (le : String → String → Bool) (l : List String) :
    List String :=
  l.foldr (insertLe le) []

/-- `fenToBoard`: split the board field on `/`; a digit expands to that many
`"."` cells, any other character is one cell.  The parsed row lists are then
exposed through the functional board representation (out-of-range reads give
`"."`, the embedding of a read that the source never performs on parsed
boards). -/
def fenToBoard (fenBoard : String) : Board :=
  let rows : List (List String) :=
    (splitOnChar fenBoard '/').map fun row =>
      row.toList.foldl
        (fun acc c =>
          if c.isDigit then acc ++ List.replicate (c.toNat - '0'.toNat) "."
          else acc ++ [String.singleton c])
        []
  fun r c =>
    if 0 ≤ r ∧ 0 ≤ c then
      ((((rows.get? r.toNat).getD []).get? c.toNat).getD ".")
    else "."

/-- `findKing(color)`: scan rows 0..7 then columns 0..7, returning the first
square holding the king letter of the colour. -/
def findKing (b : Board) (color : Color) : Option Pos :=
  let kingPiece : String := match color with | .white => "K" | .black => "k"
  (((List.range 8).map Int.ofNat).flatMap fun r =>
    ((List.range 8).map Int.ofNat).map fun c => Pos.mk r c).find?
    fun p => b p.row p.col == kingPiece

/-- `getPieces(color)`: all non-empty cells of the given colour in row-major
order, with their squares.  Colour is decided by `piece >= 'A' && piece <=
'Z'` as in the source. -/
def getPieces (b : Board) (color : Color) : List (String × Pos) :=
  let isWhite : Bool := color == Color.white
  (((List.range 8).map Int.ofNat).flatMap fun r =>
    ((List.range 8).map Int.ofNat).map fun c => Pos.mk r c).filterMap
    fun p =>
      let piece := b p.row p.col
      if piece ≠ "." then
        let pieceIsWhite := strBetween "A" piece "Z"
        if (isWhite && pieceIsWhite) || (!isWhite && !pieceIsWhite) then
          some (piece, p)
        else none
      else none

/-- The per-direction scan of `isSquareAttacked`'s sliding loop: walk from
(row, col) in direction (dr, dc) until leaving the board or hitting the first
occupied square; that square attacks iff it holds an opponent piece of the
right kind for the direction.  The loop runs at most 8 iterations from any
in-bounds start, so fuel 16 never runs out. -/
def slideAttackAux (b : Board) (isOpp : String → Bool)
    (oppRook oppBishop oppQueen : String) (isRookDir : Bool)
    (dr dc : Int) : Nat → Int → Int → Bool
  | 0, _, _ => false
  | fuel + 1, row, col =>
    if isInBounds row col then
      let piece := b row col
      if piece ≠ "." then
        isOpp piece &&
          (piece == oppQueen || (isRookDir && piece == oppRook) ||
            (!isRookDir && piece == oppBishop))
      else slideAttackAux b isOpp oppRook oppBishop oppQueen isRookDir dr dc
        fuel (row + dr) (col + dc)
    else false

/-- `isSquareAttacked(pos, byColor)`: pawn squares, knight offsets, sliding
rays (directions 0..3 orthogonal for rook/queen, 4..7 diagonal for
bishop/queen, stopping at the first occupied square), and king offsets. -/
def isSquareAttacked (b : Board) (pos : Pos) (byColor : Color) : Bool :=
  let isOpponentPiece := match byColor with
    | .white => isWhitePiece
    | .black => isBlackPiece
  let pawnDirection : Int := match byColor with | .white => 1 | .black => -1
  let opponentPawn : String := match byColor with | .white => "P" | .black => "p"
  let pawnAttack := ([-1, 1] : List Int).any fun dc =>
    let r := pos.row + pawnDirection
    let c := pos.col + dc
    isInBounds r c && b r c == opponentPawn
  let knightOffsets : List (Int × Int) :=
    [(-2, -1), (-2, 1), (-1, -2), (-1, 2), (1, -2), (1, 2), (2, -1), (2, 1)]
  let opponentKnight : String := match byColor with | .white => "N" | .black => "n"
  let knightAttack := knightOffsets.any fun d =>
    let r := pos.row + d.1
    let c := pos.col + d.2
    isInBounds r c && b r c == opponentKnight
  let slidingDirections : List (Int × Int) :=
    [(-1, 0), (1, 0), (0, -1), (0, 1), (-1, -1), (-1, 1), (1, -1), (1, 1)]
  let opponentRook : String := match byColor with | .white => "R" | .black => "r"
  let opponentBishop : String := match byColor with | .white => "B" | .black => "b"
  let opponentQueen : String := match byColor with | .white => "Q" | .black => "q"
  let slideAttack := slidingDirections.enum.any fun id =>
    let isRookDir : Bool := id.1 < 4
    let dr := id.2.1
    let dc := id.2.2
    slideAttackAux b isOpponentPiece opponentRook opponentBishop opponentQueen
      isRookDir dr dc 16 (pos.row + dr) (pos.col + dc)
  let kingOffsets : List (Int × Int) :=
    [(-1, -1), (-1, 0), (-1, 1), (0, -1), (0, 1), (1, -1), (1, 0), (1, 1)]
  let opponentKing : String := match byColor with | .white => "K" | .black => "k"
  let kingAttack := kingOffsets.any fun d =>
    let r := pos.row + d.1
    let c := pos.col + d.2
    isInBounds r c && b r c == opponentKing
  pawnAttack || knightAttack || slideAttack || kingAttack

/-- `isEnpassantMove(from, to, lastMove)`: the moving cell must be a pawn,
the step a single forward diagonal, and `lastMove` a two-square advance of
the opposing pawn landing on (from.row, to.col). -/
def isEnpassantMove (b : Board) (f t : Pos) (lastMove : MoveRec) : Bool :=
  let piece := b f.row f.col
  let isWhite := piece == "P"
  if !(piece == "p" || isWhite) then false
  else
    let direction : Int := if isWhite then -1 else 1
    if !((f.col - t.col).natAbs == 1) || !(t.row - f.row == direction) then false
    else
      let opponentPawn : String := if isWhite then "p" else "P"
      lastMove.piece == opponentPawn &&
        (lastMove.from'.row - lastMove.to'.row).natAbs == 2 &&
        lastMove.to'.row == f.row &&
        lastMove.to'.col == t.col

/-- `getLeapingMoves(pos, offsets)`: fixed offsets filtered by bounds and
"not occupied by an own piece". -/
def getLeapingMoves (b : Board) (pos : Pos) (offsets : List (Int × Int)) :
    List Pos :=
  let piece := b pos.row pos.col
  let isWhite := isWhitePiece piece
  offsets.filterMap fun d =>
    let row := pos.row + d.1
    let col := pos.col + d.2
    if isInBounds row col then
      let target := b row col
      if target == "." ||
          (if isWhite then isBlackPiece target else isWhitePiece target) then
        some (Pos.mk row col)
      else none
    else none

/-- One ray of `getSlidingMoves`: empty squares are collected and the walk
continues; the first occupied square is collected only when it holds an enemy
piece, and the walk stops there.  Fuel 16 outlasts the at most 8 steps any
ray can take. -/
def slideMovesAux (b : Board) (isWhite : Bool) (dr dc : Int) :
    Nat → Int → Int → List Pos
  | 0, _, _ => []
  | fuel + 1, row, col =>
    if isInBounds row col then
      let target := b row col
      if target == "." then
        Pos.mk row col ::
          slideMovesAux b isWhite dr dc fuel (row + dr) (col + dc)
      else if (if isWhite then isBlackPiece target else isWhitePiece target) then
        [Pos.mk row col]
      else []
    else []

/-- `getSlidingMoves(pos, directions)`. -/
def getSlidingMoves (b : Board) (pos : Pos) (directions : List (Int × Int)) :
    List Pos :=
  let piece := b pos.row pos.col
  let isWhite := isWhitePiece piece
  directions.flatMap fun d =>
    slideMovesAux b isWhite d.1 d.2 16 (pos.row + d.1) (pos.col + d.2)

/-- `getValidRookMoves`. -/
def getValidRookMoves (b : Board) (pos : Pos) : List Pos :=
  getSlidingMoves b pos [(-1, 0), (1, 0), (0, -1), (0, 1)]

/-- `getValidBishopMoves`. -/
def getValidBishopMoves (b : Board) (pos : Pos) : List Pos :=
  getSlidingMoves b pos [(-1, -1), (-1, 1), (1, -1), (1, 1)]

/-- `getValidQueenMoves`: rook rays then bishop rays. -/
def getValidQueenMoves (b : Board) (pos : Pos) : List Pos :=
  getValidRookMoves b pos ++ getValidBishopMoves b pos

/-- `getValidKnightMoves`. -/
def getValidKnightMoves (b : Board) (pos : Pos) : List Pos :=
  getLeapingMoves b pos
    [(-2, -1), (-2, 1), (-1, -2), (-1, 2), (1, -2), (1, 2), (2, -1), (2, 1)]

/-- `getValidKingMoves`: the eight one-step offsets, plus the castling
targets (king on its home square and not attacked; rights flag present;
between squares empty; transit squares not attacked).  The source does not
check that the rook is actually present on its corner square. -/
def getValidKingMoves (b : Board) (castlingRights : List Char) (pos : Pos) :
    List Pos :=
  let kingOffsets : List (Int × Int) :=
    [(-1, -1), (-1, 0), (-1, 1), (0, -1), (0, 1), (1, -1), (1, 0), (1, 1)]
  let moves := getLeapingMoves b pos kingOffsets
  let piece := b pos.row pos.col
  let isWhite := isWhitePiece piece
  let kingRow : Int := if isWhite then 7 else 0
  let opponentColor : Color := if isWhite then .black else .white
  if pos.row ≠ kingRow ∨ pos.col ≠ 4 ∨ isSquareAttacked b pos opponentColor then
    moves
  else
    let kingsideRight : Char := if isWhite then 'K' else 'k'
    let moves1 :=
      if castlingRights.contains kingsideRight &&
          b kingRow 5 == "." && b kingRow 6 == "." &&
          !isSquareAttacked b (Pos.mk kingRow 5) opponentColor &&
          !isSquareAttacked b (Pos.mk kingRow 6) opponentColor then
        moves ++ [Pos.mk kingRow 6]
      else moves
    let queensideRight : Char := if isWhite then 'Q' else 'q'
    if castlingRights.contains queensideRight &&
        b kingRow 1 == "." && b kingRow 2 == "." && b kingRow 3 == "." &&
        !isSquareAttacked b (Pos.mk kingRow 2) opponentColor &&
        !isSquareAttacked b (Pos.mk kingRow 3) opponentColor then
      moves1 ++ [Pos.mk kingRow 2]
    else moves1

/-- `getValidWhitePawnMoves`: single push, double push from row 6, diagonal
captures, and (from row 3, when a last move exists) the en passant
captures. -/
def getValidWhitePawnMoves (b : Board) (lastMove : Option MoveRec)
    (pos : Pos) : List Pos :=
  let row := pos.row
  let col := pos.col
  let pushes :=
    if isInBounds (row - 1) col && b (row - 1) col == "." then
      if row == 6 && b (row - 2) col == "." then
        [Pos.mk (row - 1) col, Pos.mk (row - 2) col]
      else [Pos.mk (row - 1) col]
    else []
  let captures := ([-1, 1] : List Int).filterMap fun dc =>
    let newRow := row - 1
    let newCol := col + dc
    if isInBounds newRow newCol && isBlackPiece (b newRow newCol) then
      some (Pos.mk newRow newCol)
    else none
  let enPassant :=
    match lastMove with
    | some lm =>
      if row == 3 then
        ([-1, 1] : List Int).filterMap fun dc =>
          let target := Pos.mk (row - 1) (col + dc)
          if isInBounds target.row target.col &&
              isEnpassantMove b (Pos.mk row col) target lm then
            some target
          else none
      else []
    | none => []
  pushes ++ captures ++ enPassant

/-- `getValidBlackPawnMoves`: mirror of the white pawn generator (pushes go
down the board, double push from row 1, en passant from row 4). -/
def getValidBlackPawnMoves (b : Board) (lastMove : Option MoveRec)
    (pos : Pos) : List Pos :=
  let row := pos.row
  let col := pos.col
  let pushes :=
    if isInBounds (row + 1) col && b (row + 1) col == "." then
      if row == 1 && b (row + 2) col == "." then
        [Pos.mk (row + 1) col, Pos.mk (row + 2) col]
      else [Pos.mk (row + 1) col]
    else []
  let captures := ([-1, 1] : List Int).filterMap fun dc =>
    let newRow := row + 1
    let newCol := col + dc
    if isInBounds newRow newCol && isWhitePiece (b newRow newCol) then
      some (Pos.mk newRow newCol)
    else none
  let enPassant :=
    match lastMove with
    | some lm =>
      if row == 4 then
        ([-1, 1] : List Int).filterMap fun dc =>
          let target := Pos.mk (row + 1) (col + dc)
          if isInBounds target.row target.col &&
              isEnpassantMove b (Pos.mk row col) target lm then
            some target
          else none
      else []
    | none => []
  pushes ++ captures ++ enPassant

/-- The piece-type dispatch of `getValidMoves` (its `forAttackCheck = true`
return value): pseudo-legal moves, before the self-check filter. -/
def getValidMovesRaw (b : Board) (castlingRights : List Char)
    (lastMove : Option MoveRec) (pos : Pos) : List Pos :=
  let piece := b pos.row pos.col
  if piece == "P" then getValidWhitePawnMoves b lastMove pos
  else if piece == "p" then getValidBlackPawnMoves b lastMove pos
  else if piece == "R" || piece == "r" then getValidRookMoves b pos
  else if piece == "B" || piece == "b" then getValidBishopMoves b pos
  else if piece == "Q" || piece == "q" then getValidQueenMoves b pos
  else if piece == "N" || piece == "n" then getValidKnightMoves b pos
  else if piece == "K" || piece == "k" then getValidKingMoves b castlingRights pos
  else []

/-- `isKingInCheck(kingColor)`: some opposing piece's pseudo-legal moves
(`getValidMoves(piecePos, true)`) reach the king's square; a missing king
yields `false`. -/
def isKingInCheck (b : Board) (castlingRights : List Char)
    (lastMove : Option MoveRec) (kingColor : Color) : Bool :=
  match findKing b kingColor with
  | none => false
  | some kingPos =>
    let opponentColor := kingColor.opp
    let opponentPieces := getPieces b opponentColor
    opponentPieces.any fun pp =>
      (getValidMovesRaw b castlingRights lastMove pp.2).any fun m =>
        m.row == kingPos.row && m.col == kingPos.col

/-- One iteration of the legality filter of `getValidMoves`: write the move
onto the board, test the mover's king for check, then write the two squares
back, keeping the destination iff the king was safe.  The board is threaded
explicitly so that the mutate-probe-revert of the source is visible. -/
def filterStep (piece : String) (castlingRights : List Char)
    (lastMove : Option MoveRec) (kingColor : Color) (pos : Pos)
    (acc : List Pos × Board) (t : Pos) : List Pos × Board :=
  let b0 := acc.2
  let originalPieceAtTo := b0 t.row t.col
  let b1 := setCell b0 pos.row pos.col "."
  let b2 := setCell b1 t.row t.col piece
  let leavesKingInCheck := isKingInCheck b2 castlingRights lastMove kingColor
  let b3 := setCell b2 pos.row pos.col piece
  let b4 := setCell b3 t.row t.col originalPieceAtTo
  (if leavesKingInCheck then acc.1 else acc.1 ++ [t], b4)

/-- `getValidMoves(pos, forAttackCheck)` with the state threaded through the
filter's board mutations, returning the destination list together with the
state as left behind by the call. -/
def getValidMovesSt (s : GameState) (pos : Pos) (forAttackCheck : Bool) :
    List Pos × GameState :=
  let piece := s.board pos.row pos.col
  let moves := getValidMovesRaw s.board s.castlingRights s.lastMove pos
  if forAttackCheck then (moves, s)
  else
    let kingColor : Color :=
      if strBetween "A" piece "Z" then .white else .black
    let r := moves.foldl
      (filterStep piece s.castlingRights s.lastMove kingColor pos)
      ([], s.board)
    (r.1, { s with board := r.2 })

/-- The destination list returned by `getValidMoves(pos, forAttackCheck)`. -/
def getValidMoves (s : GameState) (pos : Pos) (forAttackCheck : Bool) :
    List Pos :=
  (getValidMovesSt s pos forAttackCheck).1

/-- `getAllValidMoves(kingColor)`: the legal moves of every piece of the
colour, wrapped in `Move` records without a captured piece and with an empty
rights snapshot, exactly as the source builds them. -/
def getAllValidMoves (s : GameState) (kingColor : Color) : List MoveRec :=
  let pieces := getPieces s.board kingColor
  pieces.flatMap fun pp =>
    (getValidMoves s pp.2 false).map fun t =>
      { from' := pp.2
        to' := t
        piece := s.board pp.2.row pp.2.col
        captured := none
        castlingRightsBefore := [] }

/-- `boardToFen()`: run-length encode the 8 rows, `/`-separated.  The
source's trailing `.split(' ')[0]` is the identity on this output. -/
def boardToFen (b : Board) : String :=
  let rowStr : Int → String := fun i =>
    let r := (List.range 8).foldl
      (fun (acc : String × Nat) j =>
        let piece := b i (Int.ofNat j)
        if piece == "." then (acc.1, acc.2 + 1)
        else if acc.2 > 0 then (acc.1 ++ toString acc.2 ++ piece, 0)
        else (acc.1 ++ piece, 0))
      ("", 0)
    if r.2 > 0 then r.1 ++ toString r.2 else r.1
  String.intercalate "/" (((List.range 8).map Int.ofNat).map rowStr)

/-- `isInsufficientMaterial()`: the sorted lowercase letters of all pieces
joined; bare kings, lone minor piece, or two same-square-colour bishops with
bare kings are a draw. -/
def isInsufficientMaterial (b : Board) : Bool :=
  let pieces := getPieces b .white ++ getPieces b .black
  let pieceChars :=
    String.join (sortStrings (fun a b => (strLt a b || a == b))
      (pieces.map fun p => strToLower p.1))
  if pieceChars == "k" then true
  else if pieceChars == "kn" || pieceChars == "kkn" then true
  else if pieceChars == "bk" || pieceChars == "bkk" then true
  else if pieceChars == "bbkk" then
    let bishops := pieces.filter fun p => strToLower p.1 == "b"
    match bishops with
    | b1 :: b2 :: _ =>
      (b1.2.row + b1.2.col) % 2 == (b2.2.row + b2.2.col) % 2
    | _ => false
  else false

/-- `isThreefoldRepetition()`: the current layout FEN occurs at least twice
in the `history` field. -/
def isThreefoldRepetition (s : GameState) : Bool :=
  let fen := boardToFen s.board
  (s.history.filter fun h => h.2 == fen).length ≥ 2

/-- `updateGameState()`: recompute `isCheck`/`checkKingPosition`, then set
(never clear) the end-of-game flags: checkmate, stalemate, or any of the
three draw conditions. -/
def updateGameState (s : GameState) : GameState :=
  let turn : Color := if s.moveLog.length % 2 == 0 then .white else .black
  let kingColor := turn
  let isCheck := isKingInCheck s.board s.castlingRights s.lastMove kingColor
  let checkKingPosition :=
    if isCheck then findKing s.board kingColor else none
  let s1 := { s with isCheck := isCheck, checkKingPosition := checkKingPosition }
  let hasValidMoves := (getAllValidMoves s1 kingColor).length > 0
  if isCheck && !hasValidMoves then
    { s1 with isCheckmate := true, gameOver := true,
              winner := some (match turn with
                | Color.white => Color.black
                | Color.black => Color.white) }
  else if !isCheck && !hasValidMoves then
    { s1 with isStalemate := true, gameOver := true }
  else if isInsufficientMaterial s1.board || isThreefoldRepetition s1 ||
      decide (s1.halfMoveClock ≥ 100) then
    { s1 with isDraw := true, gameOver := true }
  else s1

/-- `Set.delete` on the castling-rights set. -/
def rightsDelete (rights : List Char) (c : Char) : List Char :=
  rights.filter fun x => x ≠ c

/-- Steps 3-4 of `move` (re-run verbatim by `redo`): set the destination to
the placed piece, clear the origin, and, when the moving piece is a king
stepping two columns, relocate the castling rook from its corner to the
square beside the king.  `placed` is the possibly promoted piece; `piece`
the recorded moving piece used for the castling test. -/
def placeAndCastle (b : Board) (f t : Pos) (placed piece : String) : Board :=
  let b2 := setCell b t.row t.col placed
  let b3 := setCell b2 f.row f.col "."
  let isCastling :=
    (piece == "K" || piece == "k") && (f.col - t.col).natAbs == 2
  if isCastling then
    let rookRow := f.row
    if t.col == 6 then
      setCell (setCell b3 rookRow 5 (b3 rookRow 7)) rookRow 7 "."
    else if t.col == 2 then
      setCell (setCell b3 rookRow 3 (b3 rookRow 0)) rookRow 0 "."
    else b3
  else b3

/-- Step 5 of `move`: delete the rights of a moving king, of a rook moving
from its home corner, and of a rook captured on its home corner. -/
def moveRightsUpdate (rights : List Char) (piece actualCaptured : String)
    (f t : Pos) : List Char :=
  let r1 :=
    if piece == "K" then rightsDelete (rightsDelete rights 'K') 'Q'
    else if piece == "k" then rightsDelete (rightsDelete rights 'k') 'q'
    else rights
  let r2 :=
    if piece == "R" then
      let ra := if f.row == 7 && f.col == 0 then rightsDelete r1 'Q' else r1
      if f.row == 7 && f.col == 7 then rightsDelete ra 'K' else ra
    else r1
  let r3 :=
    if piece == "r" then
      let ra := if f.row == 0 && f.col == 0 then rightsDelete r2 'q' else r2
      if f.row == 0 && f.col == 7 then rightsDelete ra 'k' else ra
    else r2
  let r4 :=
    if actualCaptured == "R" then
      let ra := if t.row == 7 && t.col == 0 then rightsDelete r3 'Q' else r3
      if t.row == 7 && t.col == 7 then rightsDelete ra 'K' else ra
    else r3
  let r5 :=
    if actualCaptured == "r" then
      let ra := if t.row == 0 && t.col == 0 then rightsDelete r4 'q' else r4
      if t.row == 0 && t.col == 7 then rightsDelete ra 'k' else ra
    else r4
  r5

/-- `move(from, to, promotionPiece?)`: returns the unchanged state and the
null sentinel when the from-square is empty or the destination is out of
bounds; otherwise removes the en passant victim, applies the promotion
substitution, moves the piece (relocating the castling rook), updates the
rights, records the move (clearing the redo stack), recomputes the game
status, and returns `{captured: !!actualCaptured, castling}`. -/
def move (s : GameState) (f t : Pos) (promotionPiece : Option String) :
    GameState × Option (Bool × Bool) :=
  let piece := s.board f.row f.col
  if piece == "." || !isInBounds t.row t.col then (s, none)
  else
    let captured := s.board t.row t.col
    let isWhitePawn := piece == "P"
    let isBlackPawn := piece == "p"
    let epHit : Bool :=
      match s.lastMove with
      | some lm => (isWhitePawn || isBlackPawn) && isEnpassantMove s.board f t lm
      | none => false
    let capturedRowEp : Int := if isWhitePawn then t.row + 1 else t.row - 1
    let actualCaptured :=
      if epHit then s.board capturedRowEp t.col else captured
    let b1 :=
      if epHit then setCell s.board capturedRowEp t.col "." else s.board
    let isPromotion :=
      (isWhitePawn && t.row == 0) || (isBlackPawn && t.row == 7)
    let pieceToPlace :=
      if isPromotion then
        let promoteTo := strToLower (jsOr promotionPiece "q")
        if isWhitePawn then strToUpper promoteTo else promoteTo
      else piece
    let isCastling :=
      (piece == "K" || piece == "k") && (f.col - t.col).natAbs == 2
    let mv : MoveRec :=
      { from' := f
        to' := t
        piece := piece
        captured := some actualCaptured
        castlingRightsBefore := s.castlingRights }
    let s' : GameState :=
      { s with
        board := placeAndCastle b1 f t pieceToPlace piece
        castlingRights := moveRightsUpdate s.castlingRights piece actualCaptured f t
        lastMove := some mv
        moveLog := s.moveLog ++ [mv]
        redoStack := [] }
    (updateGameState s', some (jsTruthy actualCaptured, isCastling))

/-- The board reversal of `undo`: the piece back on its origin, the
destination cleared, the castling rook back on its corner, and a captured
piece restored — behind the destination when the stored move matches the
en-passant shape (pawn from row 3 to 2 or 4 to 5, one-column diagonal,
destination now empty), at the destination otherwise. -/
def undoBoard (b : Board) (last : MoveRec) : Board :=
  let f := last.from'
  let t := last.to'
  let piece := last.piece
  let captured := last.captured
  let b1 := setCell b f.row f.col piece
  let b2 := setCell b1 t.row t.col "."
  let isCastling :=
    (piece == "K" || piece == "k") && (f.col - t.col).natAbs == 2
  let b3 :=
    if isCastling then
      let rookRow := f.row
      if t.col == 6 then
        setCell (setCell b2 rookRow 7 (b2 rookRow 5)) rookRow 5 "."
      else if t.col == 2 then
        setCell (setCell b2 rookRow 0 (b2 rookRow 3)) rookRow 3 "."
      else b2
    else b2
  if capturedTruthy captured then
    let cap := captured.getD ""
    if (piece == "P" && f.row == 3 && t.row == 2 &&
          (f.col - t.col).natAbs == 1 && b3 t.row t.col == ".") ||
        (piece == "p" && f.row == 4 && t.row == 5 &&
          (f.col - t.col).natAbs == 1 && b3 t.row t.col == ".") then
      let capturedRow : Int := if piece == "P" then t.row + 1 else t.row - 1
      setCell b3 capturedRow t.col cap
    else setCell b3 t.row t.col cap
  else b3

/-- `undo()`: pop the move log (no-op when empty), reverse the board
effects, restore the rights snapshot, push onto the redo stack, and point
`lastMove` at the new log tail.  Game status is not recomputed. -/
def undo (s : GameState) : GameState :=
  match s.moveLog.getLast? with
  | none => s
  | some last =>
    let moveLog' := s.moveLog.dropLast
    { s with
      board := undoBoard s.board last
      castlingRights := last.castlingRightsBefore
      moveLog := moveLog'
      redoStack := s.redoStack ++ [last]
      lastMove := moveLog'.getLast? }

/-- The board effects of `redo`: the en passant removal (re-derived against
the current last move and the stored captured piece), then the same
place-and-castle block as `move`, but placing the recorded `piece` — a
promotion is replayed as the pawn. -/
def redoBoard (b : Board) (lastMove : Option MoveRec) (mv : MoveRec) : Board :=
  let f := mv.from'
  let t := mv.to'
  let piece := mv.piece
  let epHit : Bool :=
    match lastMove with
    | some lm =>
      (piece == "P" || piece == "p") && isEnpassantMove b f t lm &&
        capturedTruthy mv.captured
    | none => false
  let b1 :=
    if epHit then
      let capturedRow : Int := if piece == "P" then t.row + 1 else t.row - 1
      setCell b capturedRow t.col "."
    else b
  placeAndCastle b1 f t piece piece

/-- The rights deletions of `redo`: recomputed from the piece and capture
identity, with the `to`-square conditions the original application did not
use. -/
def redoRightsUpdate (rights : List Char) (piece : String)
    (captured : Option String) (f t : Pos) : List Char :=
  let r1 :=
    if piece == "K" then rightsDelete (rightsDelete rights 'K') 'Q'
    else if piece == "k" then rightsDelete (rightsDelete rights 'k') 'q'
    else rights
  let r2 :=
    if piece == "R" || captured == some "R" then
      let ra :=
        if (f.row == 7 && f.col == 0) || (t.row == 7 && t.col == 0) then
          rightsDelete r1 'Q'
        else r1
      if (f.row == 7 && f.col == 7) || (t.row == 7 && t.col == 7) then
        rightsDelete ra 'K'
      else ra
    else r1
  let r3 :=
    if piece == "r" || captured == some "r" then
      let ra :=
        if (f.row == 0 && f.col == 0) || (t.row == 0 && t.col == 0) then
          rightsDelete r2 'q'
        else r2
      if (f.row == 0 && f.col == 7) || (t.row == 0 && t.col == 7) then
        rightsDelete ra 'k'
      else ra
    else r2
  r3

/-- `redo()`: pop the redo stack (no-op when empty), re-apply the move's
geometric effects and the recomputed rights deletions, push the move back
onto the log, and make it the last move.  Game status is not recomputed. -/
def redo (s : GameState) : GameState :=
  match s.redoStack.getLast? with
  | none => s
  | some mv =>
    { s with
      board := redoBoard s.board s.lastMove mv
      castlingRights := redoRightsUpdate s.castlingRights mv.piece mv.captured
        mv.from' mv.to'
      moveLog := s.moveLog ++ [mv]
      redoStack := s.redoStack.dropLast
      lastMove := some mv }


/-- JS `parseInt(s) || d`: a non-numeric or zero parse falls through to the
default. -/
def jsOrNat (s : String) (d : Nat) : Nat :=
  match parseNat? s with
  | some 0 => d
  | some v => v
  | none => d

/-- The `ChessGame` constructor: split the FEN into its six fields, parse
the board, read the castling rights (`-` meaning none; JS `Set` deduplicates),
parse the clocks with their JS defaults, and run the initial status
recomputation. -/
def mkGame (fen : String) : GameState :=
  let parts := splitOnChar fen ' '
  let boardPart := (parts.get? 0).getD ""
  let castling := (parts.get? 2).getD ""
  let halfMove := (parts.get? 4).getD ""
  let fullMove := (parts.get? 5).getD ""
  let s0 : GameState :=
    { board := fenToBoard boardPart
      lastMove := none
      moveLog := []
      redoStack := []
      castlingRights := if castling == "-" then [] else castling.toList.dedup
      history := []
      halfMoveClock := jsOrNat halfMove 0
      fullMoveNumber := jsOrNat fullMove 1
      isCheck := false
      checkKingPosition := none
      isCheckmate := false
      isStalemate := false
      isDraw := false
      gameOver := false
      winner := none }
  updateGameState s0

/-- The standard starting position used by the game page. -/
def startFEN : String :=
  "rnbqkbnr/pppppppp/8/8/8/8/PPPPPPPP/RNBQKBNR w KQkq - 0 1"

/-- A state with every end-of-game flag already set, for exercising the
monotonicity statement. -/
def flaggedState : GameState :=
  { board := fenToBoard "4k3/8/8/8/8/8/8/4K3"
    lastMove := none
    moveLog := []
    redoStack := []
    castlingRights := []
    history := []
    halfMoveClock := 0
    fullMoveNumber := 1
    isCheck := false
    checkKingPosition := none
    isCheckmate := true
    isStalemate := true
    isDraw := true
    gameOver := true
    winner := some Color.white }

/-- A position with a white pawn on d5 and a black knight on e6: the white
pawn's ordinary diagonal capture d5xe6 goes from row 3 to row 2, the shape
`undo` treats as en passant. -/
def epUndoFEN : String := "4k3/8/4n3/3P4/8/8/8/4K3 w - - 0 1"

/-- The state constructed from `epUndoFEN`. -/
def c1s0 : GameState := mkGame epUndoFEN

/-- After the ordinary pawn capture (3,3) to (2,4). -/
def c1s1 : GameState := (move c1s0 (Pos.mk 3 3) (Pos.mk 2 4) none).1

/-- After undoing that capture. -/
def c1s2 : GameState := undo c1s1

/-- A position with a white pawn one step from promotion. -/
def promoFEN : String := "4k3/P7/8/8/8/8/8/4K3 w - - 0 1"

/-- A position with a black pawn one step from promotion. -/
def promoBlackFEN : String := "4k3/8/8/8/8/8/p7/4K3 w - - 0 1"

/-- The promotion state: white pawn (1,0) promotes on (0,0) to a queen. -/
def c4s1 : GameState :=
  (move (mkGame promoFEN) (Pos.mk 1 0) (Pos.mk 0 0) (some "q")).1

/-- After undoing the promotion. -/
def c4s2 : GameState := undo c4s1

/-- After redoing the promotion. -/
def c4s3 : GameState := redo c4s2

/-- A position whose rights still contain the white kingside flag although
no rook stands on (7,7). -/
def noRookFEN : String := "4k3/8/8/8/8/8/8/4K3 w K - 0 1"

/-- The state constructed from `noRookFEN`. -/
def noRookState : GameState := mkGame noRookFEN

/-- A legal white kingside castling position (king e1, rook h1, rights K). -/
def castleFEN : String := "4k3/8/8/8/8/8/8/4K2R w K - 0 1"

/-- A legal black queenside castling position (rook a8, king e8, rights q). -/
def castleBlackFEN : String := "r3k3/8/8/8/8/8/8/4K3 w q - 0 1"

section Lemmas

theorem updateGameState_history (s : GameState) :
    (updateGameState s).history = s.history := by
  simp only [updateGameState]
  repeat' split
  all_goals simp only [apply_ite GameState.history, ite_self]

theorem updateGameState_board (s : GameState) :
    (updateGameState s).board = s.board := by
  simp only [updateGameState]
  repeat' split
  all_goals simp only [apply_ite GameState.board, ite_self]

theorem updateGameState_isCheckmate (s : GameState) (h : s.isCheckmate = true) :
    (updateGameState s).isCheckmate = true := by
  simp only [updateGameState]
  repeat' split
  all_goals simp only [apply_ite GameState.isCheckmate, h, ite_self]

theorem updateGameState_isStalemate (s : GameState) (h : s.isStalemate = true) :
    (updateGameState s).isStalemate = true := by
  simp only [updateGameState]
  repeat' split
  all_goals simp only [apply_ite GameState.isStalemate, h, ite_self]

theorem updateGameState_isDraw (s : GameState) (h : s.isDraw = true) :
    (updateGameState s).isDraw = true := by
  simp only [updateGameState]
  repeat' split
  all_goals simp only [apply_ite GameState.isDraw, h, ite_self]

theorem updateGameState_gameOver (s : GameState) (h : s.gameOver = true) :
    (updateGameState s).gameOver = true := by
  simp only [updateGameState]
  repeat' split
  all_goals simp only [apply_ite GameState.gameOver, h, ite_self]

theorem updateGameState_winner (s : GameState) (h : s.winner.isSome = true) :
    (updateGameState s).winner.isSome = true := by
  simp only [updateGameState]
  repeat' split
  all_goals
    simp only [apply_ite GameState.winner, apply_ite Option.isSome, h,
      Option.isSome_some, ite_self]

end Lemmas

/-- C2: refuted (code bug).  `move` never appends to the position-history
log: for every state and every call the `history` field of the resulting
state is the one it started with, and the constructor starts it empty — so
the third occurrence of a board layout can never be seen by
`isThreefoldRepetition`, whose count over `history` stays 0. -/
theorem c2_history_never_appended :
    (∀ (s : GameState) (f t : Pos) (p : Option String),
      ((move s f t p).1).history = s.history) ∧
    (∀ fen : String, (mkGame fen).history = []) := by
  constructor
  · intro s f t p
    simp only [move]
    split
    · rfl
    · exact updateGameState_history _
  · intro fen
    simp only [mkGame]
    exact updateGameState_history _

/-- C7: for a call with the from-square inside the board, an empty
from-square or an out-of-bounds destination makes `move` return the null
sentinel with the state unchanged in every component. -/
theorem c7_invalid_input_noop (s : GameState) (f t : Pos)
    (p : Option String) (hf : isInBounds f.row f.col = true)
    (h : s.board f.row f.col = "." ∨ isInBounds t.row t.col = false) :
    move s f t p = (s, none) := by
  simp only [move]
  have hc : (s.board f.row f.col == "." || !isInBounds t.row t.col) = true := by
    rcases h with h | h
    · simp [h]
    · simp [h]
  simp only [hc, if_true]

/-- Witness for C7 at the starting position: square (3,3) is empty, so the
move from it is a no-op. -/
theorem c7_invalid_input_noop_witness :
    move (mkGame startFEN) (Pos.mk 3 3) (Pos.mk 4 4) none =
      (mkGame startFEN, none) :=
  c7_invalid_input_noop (mkGame startFEN) (Pos.mk 3 3) (Pos.mk 4 4) none
    (by decide) (Or.inl (by decide))

/-- C10: the end-of-game flags are monotone.  `move` can only set
`isCheckmate`, `isStalemate`, `isDraw` and `gameOver` (never clear them) and
can only overwrite `winner` with a set value, while `undo` and `redo` leave
all five fields exactly as they were. -/
theorem c10_flags_monotone :
    (∀ (s : GameState) (f t : Pos) (p : Option String),
      (s.isCheckmate = true → ((move s f t p).1).isCheckmate = true) ∧
      (s.isStalemate = true → ((move s f t p).1).isStalemate = true) ∧
      (s.isDraw = true → ((move s f t p).1).isDraw = true) ∧
      (s.gameOver = true → ((move s f t p).1).gameOver = true) ∧
      (s.winner.isSome = true → ((move s f t p).1).winner.isSome = true)) ∧
    (∀ s : GameState,
      (undo s).isCheckmate = s.isCheckmate ∧
      (undo s).isStalemate = s.isStalemate ∧
      (undo s).isDraw = s.isDraw ∧
      (undo s).gameOver = s.gameOver ∧
      (undo s).winner = s.winner) ∧
    (∀ s : GameState,
      (redo s).isCheckmate = s.isCheckmate ∧
      (redo s).isStalemate = s.isStalemate ∧
      (redo s).isDraw = s.isDraw ∧
      (redo s).gameOver = s.gameOver ∧
      (redo s).winner = s.winner) := by
  refine ⟨fun s f t p => ?_, fun s => ?_, fun s => ?_⟩
  · refine ⟨fun h => ?_, fun h => ?_, fun h => ?_, fun h => ?_, fun h => ?_⟩
    all_goals simp only [move]
    all_goals split
    · exact h
    · exact updateGameState_isCheckmate _ h
    · exact h
    · exact updateGameState_isStalemate _ h
    · exact h
    · exact updateGameState_isDraw _ h
    · exact h
    · exact updateGameState_gameOver _ h
    · exact h
    · exact updateGameState_winner _ h
  · cases hl : s.moveLog.getLast? <;> simp [undo, hl]
  · cases hl : s.redoStack.getLast? <;> simp [redo, hl]

/-- Witness for C10: from a state with all flags set, a move, an undo and a
redo all keep them set. -/
theorem c10_flags_monotone_witness :
    ((move flaggedState (Pos.mk 7 4) (Pos.mk 7 3) none).1).isCheckmate = true ∧
    ((move flaggedState (Pos.mk 7 4) (Pos.mk 7 3) none).1).isStalemate = true ∧
    ((move flaggedState (Pos.mk 7 4) (Pos.mk 7 3) none).1).isDraw = true ∧
    ((move flaggedState (Pos.mk 7 4) (Pos.mk 7 3) none).1).gameOver = true ∧
    ((move flaggedState (Pos.mk 7 4) (Pos.mk 7 3) none).1).winner.isSome = true ∧
    (undo flaggedState).gameOver = flaggedState.gameOver ∧
    (redo flaggedState).winner = flaggedState.winner :=
  ⟨(c10_flags_monotone.1 flaggedState (Pos.mk 7 4) (Pos.mk 7 3) none).1 rfl,
   (c10_flags_monotone.1 flaggedState (Pos.mk 7 4) (Pos.mk 7 3) none).2.1 rfl,
   (c10_flags_monotone.1 flaggedState (Pos.mk 7 4) (Pos.mk 7 3) none).2.2.1 rfl,
   (c10_flags_monotone.1 flaggedState (Pos.mk 7 4) (Pos.mk 7 3) none).2.2.2.1 rfl,
   (c10_flags_monotone.1 flaggedState (Pos.mk 7 4) (Pos.mk 7 3) none).2.2.2.2 rfl,
   (c10_flags_monotone.2.1 flaggedState).2.2.2.1,
   (c10_flags_monotone.2.2 flaggedState).2.2.2.2⟩

section PureProbe

theorem setCell_apply (b : Board) (r c : Int) (v : String) (i j : Int) :
    setCell b r c v i j =
      if isInBounds r c = true ∧ i = r ∧ j = c then v else b i j := by
  by_cases h1 : isInBounds r c = true
  · simp [setCell, h1]
  · simp [setCell, h1]

/-- The two writes of the legality probe followed by the two write-backs
restore every cell of the board. -/
theorem setCell_revert (b : Board) (ur uc wr wc : Int) :
    setCell (setCell (setCell (setCell b ur uc ".") wr wc (b ur uc))
      ur uc (b ur uc)) wr wc (b wr wc) = b := by
  funext i j
  simp only [setCell_apply]
  split_ifs <;> simp_all

theorem filterStep_board (piece : String) (rights : List Char)
    (lm : Option MoveRec) (kc : Color) (pos : Pos) (acc : List Pos × Board)
    (t : Pos) (hpiece : piece = acc.2 pos.row pos.col) :
    (filterStep piece rights lm kc pos acc t).2 = acc.2 := by
  simp only [filterStep]
  rw [hpiece]
  exact setCell_revert acc.2 pos.row pos.col t.row t.col

theorem foldl_filterStep_board (piece : String) (rights : List Char)
    (lm : Option MoveRec) (kc : Color) (pos : Pos) (b0 : Board)
    (hpiece : piece = b0 pos.row pos.col) :
    ∀ (l : List Pos) (kept : List Pos),
      (l.foldl (filterStep piece rights lm kc pos) (kept, b0)).2 = b0 := by
  intro l
  induction l with
  | nil => intro kept; rfl
  | cons t ts ih =>
    intro kept
    have hstep : filterStep piece rights lm kc pos (kept, b0) t =
        ((filterStep piece rights lm kc pos (kept, b0) t).1, b0) := by
      have h2 := filterStep_board piece rights lm kc pos (kept, b0) t hpiece
      exact Prod.ext rfl h2
    simp only [List.foldl_cons]
    rw [hstep]
    exact ih _

/-- C9: `getValidMoves` with the default legality filter is a pure probe —
the mutate-probe-revert loop hands back exactly the state it was given, so
the board, rights, histories, last move and every cached flag are
untouched. -/
theorem c9_getValidMoves_pure (s : GameState) (pos : Pos) :
    (getValidMovesSt s pos false).2 = s := by
  simp only [getValidMovesSt, Bool.false_eq_true, if_false]
  rw [foldl_filterStep_board _ _ _ _ _ _ rfl]

end PureProbe

section MoveGeneration

theorem getLeapingMoves_mem (b : Board) (pos : Pos) (offsets : List (Int × Int))
    (x : Pos) (h : x ∈ getLeapingMoves b pos offsets) :
    ∃ d ∈ offsets, x = Pos.mk (pos.row + d.1) (pos.col + d.2) := by
  simp only [getLeapingMoves] at h
  rcases List.mem_filterMap.mp h with ⟨d, hd, hx⟩
  refine ⟨d, hd, ?_⟩
  split_ifs at hx <;> simp_all

theorem foldl_filterStep_mem (piece : String) (rights : List Char)
    (lm : Option MoveRec) (kc : Color) (pos : Pos) :
    ∀ (l : List Pos) (acc : List Pos × Board) (x : Pos),
      x ∈ (l.foldl (filterStep piece rights lm kc pos) acc).1 →
      x ∈ acc.1 ∨ x ∈ l := by
  intro l
  induction l with
  | nil => exact fun acc x h => Or.inl h
  | cons a as ih =>
    intro acc x h
    rcases ih _ x h with h1 | h1
    · simp only [filterStep] at h1
      split at h1
      · exact Or.inl h1
      · rcases List.mem_append.mp h1 with h2 | h2
        · exact Or.inl h2
        · simp only [List.mem_singleton] at h2
          exact Or.inr (h2 ▸ List.mem_cons_self a as)
    · exact Or.inr (List.mem_cons_of_mem _ h1)

theorem getValidMoves_subset_raw (s : GameState) (pos : Pos) (x : Pos)
    (h : x ∈ getValidMoves s pos false) :
    x ∈ getValidMovesRaw s.board s.castlingRights s.lastMove pos := by
  simp only [getValidMoves, getValidMovesSt, Bool.false_eq_true, if_false] at h
  rcases foldl_filterStep_mem _ _ _ _ _ _ _ _ h with h1 | h1
  · cases h1
  · exact h1

theorem c6_white_only :
    ∀ (s : GameState) (pos t : Pos),
      s.board pos.row pos.col = "K" →
      (t.col - pos.col).natAbs = 2 →
      t ∈ getValidMoves s pos false →
      pos.row = 7 ∧ pos.col = 4 ∧
      isSquareAttacked s.board pos Color.black = false ∧
      ((t = Pos.mk 7 6 ∧ 'K' ∈ s.castlingRights ∧
        s.board 7 5 = "." ∧ s.board 7 6 = "." ∧
        isSquareAttacked s.board (Pos.mk 7 5) Color.black = false ∧
        isSquareAttacked s.board (Pos.mk 7 6) Color.black = false) ∨
       (t = Pos.mk 7 2 ∧ 'Q' ∈ s.castlingRights ∧
        s.board 7 1 = "." ∧ s.board 7 2 = "." ∧ s.board 7 3 = "." ∧
        isSquareAttacked s.board (Pos.mk 7 2) Color.black = false ∧
        isSquareAttacked s.board (Pos.mk 7 3) Color.black = false)) := by
  intro s pos t hP habs hmem
  have hraw := getValidMoves_subset_raw s pos t hmem
  rw [getValidMovesRaw] at hraw
  simp only [hP] at hraw
  norm_num at hraw
  rw [getValidKingMoves] at hraw
  simp only [hP, show isWhitePiece "K" = true from by decide] at hraw
  norm_num at hraw
  rw [if_neg (show ¬("K" = "P") from by decide),
    if_neg (show ¬("K" = "p") from by decide),
    if_neg (show ¬("K" = "R" ∨ "K" = "r") from by decide),
    if_neg (show ¬("K" = "B" ∨ "K" = "b") from by decide),
    if_neg (show ¬("K" = "Q" ∨ "K" = "q") from by decide),
    if_neg (show ¬("K" = "N" ∨ "K" = "n") from by decide)] at hraw
  have hleap : ∀ x : Pos, x ∈ getLeapingMoves s.board pos
      [(-1, -1), (-1, 0), (-1, 1), (0, -1), (0, 1), (1, -1), (1, 0), (1, 1)] →
      (x.col - pos.col).natAbs = 2 → False := by
    intro x hx habs2
    rcases getLeapingMoves_mem _ _ _ _ hx with ⟨d, hd, ht⟩
    subst ht
    simp only [List.mem_cons, List.not_mem_nil, or_false] at hd
    rcases hd with h | h | h | h | h | h | h | h <;> subst h <;>
      simp only [] at habs2 <;> omega
  split at hraw
  · exact absurd habs (fun hh => hleap t hraw hh)
  · rename_i hcond
    push_neg at hcond
    obtain ⟨h7, h4, hatt⟩ := hcond
    refine ⟨h7, h4, by simpa using hatt, ?_⟩
    split at hraw
    · rename_i hq
      obtain ⟨⟨⟨⟨⟨hq1, hq2⟩, hq3⟩, hq4⟩, hq5⟩, hq6⟩ := hq
      rcases List.mem_append.mp hraw with h1 | h1
      · split at h1
        · rename_i hk
          obtain ⟨⟨⟨⟨hk1, hk2⟩, hk3⟩, hk4⟩, hk5⟩ := hk
          rcases List.mem_append.mp h1 with h2 | h2
          · exact absurd habs (fun hh => hleap t h2 hh)
          · simp only [List.mem_singleton] at h2
            exact Or.inl ⟨h2, hk1, hk2, hk3, hk4, hk5⟩
        · exact absurd habs (fun hh => hleap t h1 hh)
      · simp only [List.mem_singleton] at h1
        exact Or.inr ⟨h1, hq1, hq2, hq3, hq4, hq5, hq6⟩
    · split at hraw
      · rename_i hk
        obtain ⟨⟨⟨⟨hk1, hk2⟩, hk3⟩, hk4⟩, hk5⟩ := hk
        rcases List.mem_append.mp hraw with h1 | h1
        · exact absurd habs (fun hh => hleap t h1 hh)
        · simp only [List.mem_singleton] at h1
          exact Or.inl ⟨h1, hk1, hk2, hk3, hk4, hk5⟩
      · exact absurd habs (fun hh => hleap t hraw hh)


theorem c6_black_only :
    ∀ (s : GameState) (pos t : Pos),
      s.board pos.row pos.col = "k" →
      (t.col - pos.col).natAbs = 2 →
      t ∈ getValidMoves s pos false →
      pos.row = 0 ∧ pos.col = 4 ∧
      isSquareAttacked s.board pos Color.white = false ∧
      ((t = Pos.mk 0 6 ∧ 'k' ∈ s.castlingRights ∧
        s.board 0 5 = "." ∧ s.board 0 6 = "." ∧
        isSquareAttacked s.board (Pos.mk 0 5) Color.white = false ∧
        isSquareAttacked s.board (Pos.mk 0 6) Color.white = false) ∨
       (t = Pos.mk 0 2 ∧ 'q' ∈ s.castlingRights ∧
        s.board 0 1 = "." ∧ s.board 0 2 = "." ∧ s.board 0 3 = "." ∧
        isSquareAttacked s.board (Pos.mk 0 2) Color.white = false ∧
        isSquareAttacked s.board (Pos.mk 0 3) Color.white = false)) := by
  intro s pos t hP habs hmem
  have hraw := getValidMoves_subset_raw s pos t hmem
  rw [getValidMovesRaw] at hraw
  simp only [hP] at hraw
  norm_num at hraw
  rw [getValidKingMoves] at hraw
  simp only [hP, show isWhitePiece "k" = false from by decide] at hraw
  norm_num at hraw
  rw [if_neg (show ¬("k" = "P") from by decide),
    if_neg (show ¬("k" = "p") from by decide),
    if_neg (show ¬("k" = "R" ∨ "k" = "r") from by decide),
    if_neg (show ¬("k" = "B" ∨ "k" = "b") from by decide),
    if_neg (show ¬("k" = "Q" ∨ "k" = "q") from by decide),
    if_neg (show ¬("k" = "N" ∨ "k" = "n") from by decide)] at hraw
  have hleap : ∀ x : Pos, x ∈ getLeapingMoves s.board pos
      [(-1, -1), (-1, 0), (-1, 1), (0, -1), (0, 1), (1, -1), (1, 0), (1, 1)] →
      (x.col - pos.col).natAbs = 2 → False := by
    intro x hx habs2
    rcases getLeapingMoves_mem _ _ _ _ hx with ⟨d, hd, ht⟩
    subst ht
    simp only [List.mem_cons, List.not_mem_nil, or_false] at hd
    rcases hd with h | h | h | h | h | h | h | h <;> subst h <;>
      simp only [] at habs2 <;> omega
  split at hraw
  · exact absurd habs (fun hh => hleap t hraw hh)
  · rename_i hcond
    push_neg at hcond
    obtain ⟨h7, h4, hatt⟩ := hcond
    refine ⟨h7, h4, by simpa using hatt, ?_⟩
    split at hraw
    · rename_i hq
      obtain ⟨⟨⟨⟨⟨hq1, hq2⟩, hq3⟩, hq4⟩, hq5⟩, hq6⟩ := hq
      rcases List.mem_append.mp hraw with h1 | h1
      · split at h1
        · rename_i hk
          obtain ⟨⟨⟨⟨hk1, hk2⟩, hk3⟩, hk4⟩, hk5⟩ := hk
          rcases List.mem_append.mp h1 with h2 | h2
          · exact absurd habs (fun hh => hleap t h2 hh)
          · simp only [List.mem_singleton] at h2
            exact Or.inl ⟨h2, hk1, hk2, hk3, hk4, hk5⟩
        · exact absurd habs (fun hh => hleap t h1 hh)
      · simp only [List.mem_singleton] at h1
        exact Or.inr ⟨h1, hq1, hq2, hq3, hq4, hq5, hq6⟩
    · split at hraw
      · rename_i hk
        obtain ⟨⟨⟨⟨hk1, hk2⟩, hk3⟩, hk4⟩, hk5⟩ := hk
        rcases List.mem_append.mp hraw with h1 | h1
        · exact absurd habs (fun hh => hleap t h1 hh)
        · simp only [List.mem_singleton] at h1
          exact Or.inl ⟨h1, hk1, hk2, hk3, hk4, hk5⟩
      · exact absurd habs (fun hh => hleap t hraw hh)

end MoveGeneration

/-- C3 (amended): for a pawn move onto the farthest rank, the destination
ends up holding the case-adjusted literal promotion choice — the lowercased
choice (uppercased for white), with queen substituted only when the choice
is absent or empty.  Choices in {q, r, b, n} therefore give that piece and
the default gives a queen, but any other letter is placed as given, so the
destination is not confined to {queen, rook, bishop, knight}. -/
theorem c3_amended_promotion :
    (∀ (s : GameState) (f t : Pos) (p : Option String),
      s.board f.row f.col = "P" → f.row = 1 → t.row = 0 →
      isInBounds t.row t.col = true →
      ((move s f t p).1).board t.row t.col =
        strToUpper (strToLower (jsOr p "q"))) ∧
    (∀ (s : GameState) (f t : Pos) (p : Option String),
      s.board f.row f.col = "p" → f.row = 6 → t.row = 7 →
      isInBounds t.row t.col = true →
      ((move s f t p).1).board t.row t.col =
        strToLower (jsOr p "q")) := by
  constructor
  · intro s f t p hP hfr htr hin
    simp only [move, hP, hin]
    norm_num
    rw [if_neg (by decide : ¬("P" = "."))]
    simp only []
    rw [updateGameState_board]
    simp only [placeAndCastle]
    norm_num
    have hcastle : ¬(("P" = "K" ∨ "P" = "k") ∧ (f.col - t.col).natAbs = 2) := by
      rintro ⟨h1 | h1, h2⟩ <;> simp at h1
    rw [if_neg hcastle]
    rw [htr] at hin
    simp [setCell_apply, hin, hfr, htr]
  · intro s f t p hP hfr htr hin
    simp only [move, hP, hin]
    norm_num
    rw [if_neg (by decide : ¬("p" = "."))]
    simp only []
    rw [updateGameState_board]
    simp only [placeAndCastle]
    norm_num
    have hcastle : ¬(("p" = "K" ∨ "p" = "k") ∧ (f.col - t.col).natAbs = 2) := by
      rintro ⟨h1 | h1, h2⟩ <;> simp at h1
    rw [if_neg hcastle]
    rw [htr] at hin
    simp [setCell_apply, hin, hfr, htr]

/-- Witness for the amended C3: promoting with choice "n" yields a white
knight, and a black promotion with no choice yields a black queen. -/
theorem c3_amended_promotion_witness :
    ((move (mkGame promoFEN) (Pos.mk 1 0) (Pos.mk 0 0) (some "n")).1).board
        (Pos.mk 0 0).row (Pos.mk 0 0).col =
      strToUpper (strToLower (jsOr (some "n") "q")) ∧
    ((move (mkGame promoBlackFEN) (Pos.mk 6 0) (Pos.mk 7 0) none).1).board
        (Pos.mk 7 0).row (Pos.mk 7 0).col =
      strToLower (jsOr none "q") :=
  ⟨c3_amended_promotion.1 (mkGame promoFEN) (Pos.mk 1 0) (Pos.mk 0 0)
      (some "n") (by decide) rfl rfl (by decide),
   c3_amended_promotion.2 (mkGame promoBlackFEN) (Pos.mk 6 0) (Pos.mk 7 0)
      none (by decide) rfl rfl (by decide)⟩

/-- C6 (amended): a two-column king destination is offered only when the
king stands on its home square (row 7 or 0, column 4) and is not attacked,
the side's rights flag is present, the squares between king and rook are
empty, and the squares the king crosses (including the destination) are not
attacked — but the rook's presence on its corner is not checked. -/
theorem c6_amended_castling_conditions :
    (∀ (s : GameState) (pos t : Pos),
      s.board pos.row pos.col = "K" →
      (t.col - pos.col).natAbs = 2 →
      t ∈ getValidMoves s pos false →
      pos.row = 7 ∧ pos.col = 4 ∧
      isSquareAttacked s.board pos Color.black = false ∧
      ((t = Pos.mk 7 6 ∧ 'K' ∈ s.castlingRights ∧
        s.board 7 5 = "." ∧ s.board 7 6 = "." ∧
        isSquareAttacked s.board (Pos.mk 7 5) Color.black = false ∧
        isSquareAttacked s.board (Pos.mk 7 6) Color.black = false) ∨
       (t = Pos.mk 7 2 ∧ 'Q' ∈ s.castlingRights ∧
        s.board 7 1 = "." ∧ s.board 7 2 = "." ∧ s.board 7 3 = "." ∧
        isSquareAttacked s.board (Pos.mk 7 2) Color.black = false ∧
        isSquareAttacked s.board (Pos.mk 7 3) Color.black = false))) ∧
    (∀ (s : GameState) (pos t : Pos),
      s.board pos.row pos.col = "k" →
      (t.col - pos.col).natAbs = 2 →
      t ∈ getValidMoves s pos false →
      pos.row = 0 ∧ pos.col = 4 ∧
      isSquareAttacked s.board pos Color.white = false ∧
      ((t = Pos.mk 0 6 ∧ 'k' ∈ s.castlingRights ∧
        s.board 0 5 = "." ∧ s.board 0 6 = "." ∧
        isSquareAttacked s.board (Pos.mk 0 5) Color.white = false ∧
        isSquareAttacked s.board (Pos.mk 0 6) Color.white = false) ∨
       (t = Pos.mk 0 2 ∧ 'q' ∈ s.castlingRights ∧
        s.board 0 1 = "." ∧ s.board 0 2 = "." ∧ s.board 0 3 = "." ∧
        isSquareAttacked s.board (Pos.mk 0 2) Color.white = false ∧
        isSquareAttacked s.board (Pos.mk 0 3) Color.white = false))) :=
  ⟨c6_white_only, c6_black_only⟩

/-- Witness for the amended C6: the conditions extracted for the white
kingside castle in `castleFEN` and the black queenside castle in
`castleBlackFEN`. -/
theorem c6_amended_castling_conditions_witness :
    ((Pos.mk 7 4).row = 7 ∧ (Pos.mk 7 4).col = 4 ∧
      isSquareAttacked (mkGame castleFEN).board (Pos.mk 7 4) Color.black =
        false ∧
      ((Pos.mk 7 6 = Pos.mk 7 6 ∧ 'K' ∈ (mkGame castleFEN).castlingRights ∧
        (mkGame castleFEN).board 7 5 = "." ∧
        (mkGame castleFEN).board 7 6 = "." ∧
        isSquareAttacked (mkGame castleFEN).board (Pos.mk 7 5) Color.black =
          false ∧
        isSquareAttacked (mkGame castleFEN).board (Pos.mk 7 6) Color.black =
          false) ∨
       (Pos.mk 7 6 = Pos.mk 7 2 ∧ 'Q' ∈ (mkGame castleFEN).castlingRights ∧
        (mkGame castleFEN).board 7 1 = "." ∧
        (mkGame castleFEN).board 7 2 = "." ∧
        (mkGame castleFEN).board 7 3 = "." ∧
        isSquareAttacked (mkGame castleFEN).board (Pos.mk 7 2) Color.black =
          false ∧
        isSquareAttacked (mkGame castleFEN).board (Pos.mk 7 3) Color.black =
          false))) ∧
    ((Pos.mk 0 4).row = 0 ∧ (Pos.mk 0 4).col = 4 ∧
      isSquareAttacked (mkGame castleBlackFEN).board (Pos.mk 0 4)
        Color.white = false ∧
      ((Pos.mk 0 2 = Pos.mk 0 6 ∧
        'k' ∈ (mkGame castleBlackFEN).castlingRights ∧
        (mkGame castleBlackFEN).board 0 5 = "." ∧
        (mkGame castleBlackFEN).board 0 6 = "." ∧
        isSquareAttacked (mkGame castleBlackFEN).board (Pos.mk 0 5)
          Color.white = false ∧
        isSquareAttacked (mkGame castleBlackFEN).board (Pos.mk 0 6)
          Color.white = false) ∨
       (Pos.mk 0 2 = Pos.mk 0 2 ∧
        'q' ∈ (mkGame castleBlackFEN).castlingRights ∧
        (mkGame castleBlackFEN).board 0 1 = "." ∧
        (mkGame castleBlackFEN).board 0 2 = "." ∧
        (mkGame castleBlackFEN).board 0 3 = "." ∧
        isSquareAttacked (mkGame castleBlackFEN).board (Pos.mk 0 2)
          Color.white = false ∧
        isSquareAttacked (mkGame castleBlackFEN).board (Pos.mk 0 3)
          Color.white = false))) :=
  ⟨c6_amended_castling_conditions.1 (mkGame castleFEN) (Pos.mk 7 4)
      (Pos.mk 7 6) (by decide) (by decide) (by decide),
   c6_amended_castling_conditions.2 (mkGame castleBlackFEN) (Pos.mk 0 4)
      (Pos.mk 0 2) (by decide) (by decide) (by decide)⟩

/-- C1: refuted (code bug).  The legal ordinary capture d5xe6 (white pawn
from (3,3) to (2,4), taking the knight that stands on (2,4)) matches the
en-passant shape `undo` re-derives (white pawn, row 3 to row 2, one-column
diagonal, destination empty after the piece moved back), so `undo` restores
the knight to (3,4) — the square behind the destination — instead of (2,4),
and the board is not the one that existed before the move. -/
theorem c1_undo_misplaces_normal_pawn_capture :
    (Pos.mk 2 4 ∈ getValidMoves c1s0 (Pos.mk 3 3) false) ∧
    c1s0.board 2 4 = "n" ∧ c1s0.board 3 4 = "." ∧
    c1s2.board 2 4 = "." ∧ c1s2.board 3 4 = "n" := by decide

/-- C4: refuted (code bug).  `redo` replays the recorded `piece`, which for
a promotion is the pawn: after promoting a7-a8=Q, undoing and redoing, the
destination holds "P", not the "Q" the original application placed. -/
theorem c4_redo_drops_promotion :
    (Pos.mk 0 0 ∈ getValidMoves (mkGame promoFEN) (Pos.mk 1 0) false) ∧
    c4s1.board 0 0 = "Q" ∧ c4s2.board 0 0 = "." ∧ c4s2.board 1 0 = "P" ∧
    c4s3.board 0 0 = "P" ∧ c4s3.board 0 0 ≠ c4s1.board 0 0 := by decide

/-- C5: refuted (code bug).  The result's `captured` field is
`!!actualCaptured`, and `actualCaptured` for a quiet move is the
destination's `"."` marker — a truthy, non-empty string — so the flag is
`true` even for the quiet opening push e2-e3 onto an empty square with no
en passant available. -/
theorem c5_captured_flag_true_on_quiet_move :
    (mkGame startFEN).board 5 4 = "." ∧
    (mkGame startFEN).lastMove = none ∧
    (Pos.mk 5 4 ∈ getValidMoves (mkGame startFEN) (Pos.mk 6 4) false) ∧
    (move (mkGame startFEN) (Pos.mk 6 4) (Pos.mk 5 4) none).2 =
      some (true, false) := by decide

/-- C6 counterexample: in the state built from `noRookFEN` the white
kingside rights flag is present, the squares between (7,4) and (7,7) are
empty and unattacked, but no rook stands on (7,7) — and `getValidMoves`
still offers the castling destination (7,6), so rook presence is not one of
the conditions. -/
theorem c6_castling_offered_without_rook :
    noRookState.board 7 7 = "." ∧ noRookState.castlingRights = ['K'] ∧
    (Pos.mk 7 6 ∈ getValidMoves noRookState (Pos.mk 7 4) false) := by decide

/-- C3 counterexample: the promotion choice "x" is not coerced to a queen —
the destination square ends up holding "X", a piece type outside
{queen, rook, bishop, knight}. -/
theorem c3_promotion_choice_not_restricted :
    (Pos.mk 0 0 ∈ getValidMoves (mkGame promoFEN) (Pos.mk 1 0) false) ∧
    ((move (mkGame promoFEN) (Pos.mk 1 0) (Pos.mk 0 0) (some "x")).1).board
      0 0 = "X" ∧
    ("X" ∈ (["Q", "R", "B", "N"] : List String) → False) := by decide

/-- C8: in the state built from the standard starting FEN, the number of
legal destinations summed over all squares holding a white piece is exactly
20. -/
theorem c8_twenty_legal_moves :
    ((getPieces (mkGame startFEN).board Color.white).map fun p =>
      (getValidMoves (mkGame startFEN) p.2 false).length).sum = 20 := by
  decide

end ChessOffline
